import Mathlib

/-!
Verification development for the element/schema conversion and
name-resolution subsystem of `pyflink/table/table_environment.py`.

The file embeds, as executable Lean definitions:

* the control flow of `TableEnvironment.from_elements` /
  `TableEnvironment._from_elements` (schema dispatch, scalar wrapping,
  Expression handling, verification, conversion to SQL data and the
  temporary-file sink lifecycle), translated from the source;
* the sink lifecycle of `TableEnvironment.from_pandas`, translated from
  the source;
* the argument validation of `StreamTableEnvironment.create`, translated
  from the source;
* the schema inference, record conversion and path resolution algorithms,
  which live outside this file's source tree (`pyflink.table.types` and
  the Java engine); those are modelled from the specification and each
  such definition is marked `Modelled from the spec:` in its doc comment.

The helper functions `_create_type_verifier` and `to_sql_type` are also
external to the source tree; `from_elements` is therefore parameterised
by an arbitrary verifier `V` and SQL-conversion function `toSql`, so the
theorems below hold for every behaviour of those externals.
-/

namespace Flink

/-- Error taxonomy of the subsystem (spec section 7: ParseError, SchemaError,
ValidationError, TransportError) together with the Python exception kinds
raised directly by `table_environment.py` (`ValueError`, `TypeError`,
`ZeroDivisionError`). -/
inductive PyErr where
  | parseError (msg : String)
  | schemaError (msg : String)
  | validationError (msg : String)
  | transportError (msg : String)
  | typeError (msg : String)
  | valueError (msg : String)
  | zeroDivisionError
deriving DecidableEq

/-- TypeDescriptor (spec section 3): atomic types plus recursive composite
types (row, list, map).  A row type's fields are an ordered list of
(name, type) pairs. -/
inductive DataType where
  | booleanType
  | integerType
  | longType
  | floatType
  | doubleType
  | stringType
  | byteArrayType
  | dateType
  | timeType
  | timestampType
  | durationType
  | decimalType
  | listType (elem : DataType)
  | mapType (key value : DataType)
  | rowType (fields : List (String × DataType))

/-- Is the data type a row (composite) type?  Mirrors the
`isinstance(schema, RowType)` test in `from_elements`. -/
def isRowDT : DataType → Bool
  | .rowType _ => true
  | _ => false

/-- A Python value as seen by `from_elements`: the RawRecord shapes of the
spec (ordered tuple / sequence, named mapping, structured row), the atomic
values, and `Expression` objects (`pyflink.table.Expression`), which
`from_elements` treats specially.  Sequences (Python `list`) are modelled by
the same constructor as tuples since the subsystem treats both positionally.
Float values are carried opaquely (their text) -- no arithmetic is done on
them anywhere in the subsystem. -/
inductive PyObj where
  | boolObj (b : Bool)
  | intObj (n : Int)
  | floatObj (text : String)
  | strObj (s : String)
  | bytesObj (bs : List Nat)
  | tupleObj (vs : List PyObj)
  | dictObj (kvs : List (String × PyObj))
  | rowObj (names : Option (List String)) (vs : List PyObj)
  | exprObj (id : Nat)

/-- The `schema` argument of `from_elements`: absent, a list of field
names, or a `DataType` (row or scalar). -/
inductive SchemaArg where
  | noSchema
  | names (ns : List String)
  | dt (d : DataType)

/-- `Except`-valued map over a list, failing on the first error.  This is
the evaluation order of Python's list comprehensions over lazy `map`s in
`from_elements`: elements are processed left to right and the first
exception aborts the whole traversal. -/
def mapE (f : α → Except PyErr β) : List α → Except PyErr (List β)
  | [] => .ok []
  | x :: xs =>
    match f x with
    | .error e => .error e
    | .ok y =>
      match mapE f xs with
      | .error e => .error e
      | .ok ys => .ok (y :: ys)

/-- `Except`-valued left fold, failing on the first error. -/
def foldE (f : β → α → Except PyErr β) (init : β) : List α → Except PyErr β
  | [] => .ok init
  | x :: xs =>
    match f init x with
    | .error e => .error e
    | .ok acc => foldE f acc xs

/-- Does an `Except` hold an error? -/
def isErr : Except PyErr α → Bool
  | .error _ => true
  | .ok _ => false

/-- Modelled from the spec: the fixed type-widening lattice of
`infer_schema` (spec section 4.1, algorithmic notes):
boolean < integer < long < float < double; every other type is not
comparable to the numeric chain.  Returns the rank in the chain, or
`none` for types outside it. -/
def latticeRank : DataType → Option Nat
  | .booleanType => some 0
  | .integerType => some 1
  | .longType => some 2
  | .floatType => some 3
  | .doubleType => some 4
  | _ => none

/-- Equality test for atomic types only; composite types always compare
`false`.  Sufficient for `widen`, whose inputs are the atomic per-value
types produced by `inferType`. -/
def atomEq : DataType → DataType → Bool
  | .booleanType, .booleanType => true
  | .integerType, .integerType => true
  | .longType, .longType => true
  | .floatType, .floatType => true
  | .doubleType, .doubleType => true
  | .stringType, .stringType => true
  | .byteArrayType, .byteArrayType => true
  | .dateType, .dateType => true
  | .timeType, .timeType => true
  | .timestampType, .timestampType => true
  | .durationType, .durationType => true
  | .decimalType, .decimalType => true
  | _, _ => false

/-- Modelled from the spec: widening of two column types
(spec section 4.1).  Types on the numeric lattice widen to the higher
rank; types off the lattice reconcile only with themselves; every other
combination is a SchemaError (spec section 9: any case not covered by the
documented lattice is a SchemaError, never a silent coercion). -/
def widen (a b : DataType) : Except PyErr DataType :=
  match latticeRank a, latticeRank b with
  | some ra, some rb => .ok (if ra ≤ rb then b else a)
  | _, _ =>
    if atomEq a b then .ok a
    else .error (.schemaError "can not reconcile conflicting column types")

/-- Modelled from the spec: the per-value atomic type of a field value
(spec section 4.1: value types are inspected across all records).
Composite or Expression field values are not covered by the documented
widening examples and are reported as SchemaError (spec section 9). -/
def inferType : PyObj → Except PyErr DataType
  | .boolObj _ => .ok .booleanType
  | .intObj _ => .ok .longType
  | .floatObj _ => .ok .doubleType
  | .strObj _ => .ok .stringType
  | .bytesObj _ => .ok .byteArrayType
  | _ => .error (.schemaError "can not infer the type of this value")

/-- Generated positional field names `_1`, `_2`, ... (documented in the
`from_elements` docstring for tuple records). -/
def genNames (n : Nat) : List String :=
  (List.range n).map fun i => "_" ++ toString (i + 1)

/-- Code-point-wise comparison of two strings as character lists
(`a ≤ b` lexicographically). -/
def charsLe : List Char → List Char → Bool
  | [], _ => true
  | _ :: _, [] => false
  | a :: as, b :: bs =>
    if a.toNat < b.toNat then true
    else if b.toNat < a.toNat then false
    else charsLe as bs

/-- Lexicographic key order used when sorting mapping records. -/
def keyLe (a b : String) : Bool := charsLe a.toList b.toList

/-- Insert a key/value pair into a key-sorted association list. -/
def insertByKey (p : String × PyObj) : List (String × PyObj) → List (String × PyObj)
  | [] => [p]
  | q :: rest => if keyLe p.1 q.1 then p :: q :: rest else q :: insertByKey p rest

/-- Sort an association list by key (insertion sort).  Used for mapping
records so that inference is independent of the iteration order of the
unordered container (spec section 4.1, algorithmic notes: stability). -/
def sortByKey (kvs : List (String × PyObj)) : List (String × PyObj) :=
  kvs.foldr insertByKey []

/-- Modelled from the spec: the (field name, field value) list of one
RawRecord (spec section 3): ordered tuples and sequences are positional
with generated names, mappings are taken in sorted key order, structured
rows carry positional values with optional names.  A value of any other
shape is not a RawRecord and is a SchemaError. -/
def recordFields : PyObj → Except PyErr (List (String × PyObj))
  | .tupleObj vs => .ok ((genNames vs.length).zip vs)
  | .dictObj kvs => .ok (sortByKey kvs)
  | .rowObj none vs => .ok ((genNames vs.length).zip vs)
  | .rowObj (some ns) vs =>
    if ns.length = vs.length then .ok (ns.zip vs)
    else .error (.schemaError "row field names and values differ in length")
  | _ => .error (.schemaError "can not infer schema from a record of this shape")

/-- The arity of a RawRecord, when it has one. -/
def recordArity (r : PyObj) : Option Nat :=
  match recordFields r with
  | .ok f => some f.length
  | .error _ => none

/-- Field names of the schema: the caller's name hint when present (whose
length must agree with the inferred arity, spec section 4.1), otherwise the
names of the first record. -/
def resolveNames (f0 : List (String × PyObj)) :
    Option (List String) → Except PyErr (List String)
  | none => .ok (f0.map Prod.fst)
  | some ns =>
    if ns.length = f0.length then .ok ns
    else .error (.schemaError "the length of the field names does not match the arity")

/-- Check one record against the shape of the first record: same field
names (hence same arity and shape class), returning its field values.
Mismatched records are a SchemaError, never padded or truncated
(spec sections 3 and 4.1). -/
def checkShape (f0 : List (String × PyObj)) (r : PyObj) :
    Except PyErr (List PyObj) :=
  match recordFields r with
  | .error e => .error e
  | .ok f =>
    if f.map Prod.fst = f0.map Prod.fst then .ok (f.map Prod.snd)
    else .error (.schemaError "records have heterogeneous arity or shape")

/-- Widen a non-empty list of per-value column types to the narrowest
common type (spec section 4.1). -/
def inferColumnType : List DataType → Except PyErr DataType
  | [] => .error (.schemaError "can not infer a column type from no values")
  | t :: ts => foldE widen t ts

/-- The per-record types observed in column `j`, then their widened join. -/
def inferColumn (rowsVals : List (List PyObj)) (j : Nat) :
    Except PyErr DataType :=
  match mapE (fun vs =>
      match vs[j]? with
      | some v => inferType v
      | none => .error (.schemaError "missing column value")) rowsVals with
  | .error e => .error e
  | .ok ts => inferColumnType ts

/-- Modelled from the spec: `infer_schema(records, name_hint)`
(spec section 4.1, implemented in `pyflink.table.types`,
`_infer_schema_from_data`, outside this source tree).  The first record
determines arity and field-name order; every record must have the same
shape; per column, the value types of all records are widened to the
narrowest common type; failures are SchemaErrors. -/
def infer_schema (records : List PyObj) (names : Option (List String)) :
    Except PyErr (List (String × DataType)) :=
  match records with
  | [] => .error (.schemaError "can not infer schema from an empty dataset")
  | r0 :: _ =>
    match recordFields r0 with
    | .error e => .error e
    | .ok f0 =>
      match resolveNames f0 names with
      | .error e => .error e
      | .ok fieldNames =>
        match mapE (checkShape f0) records with
        | .error e => .error e
        | .ok rowsVals =>
          match mapE (inferColumn rowsVals) (List.range f0.length) with
          | .error e => .error e
          | .ok colTys => .ok (fieldNames.zip colTys)

/-- Name lookup in a mapping record (Python `d[name]`). -/
def lookupKV (k : String) : List (String × PyObj) → Option PyObj
  | [] => none
  | p :: rest => if p.1 == k then some p.2 else lookupKV k rest

/-- Modelled from the spec: `convert(schema, record)` for one value against
one TypeDescriptor (spec section 4.1, implemented by `_create_converter` /
`to_sql_type` in `pyflink.table.types`, outside this source tree).  Maps
each positional or named raw value into the internal row representation
(a positional tuple), recursing into composite fields; field order is the
schema's field order regardless of the input record's own key order: for
mapping-shaped records values are looked up by name and placed
positionally.  Atomic values pass through unchanged. -/
def convertValue : DataType → PyObj → Except PyErr PyObj
  | .rowType fs, .tupleObj vs =>
    if fs.length = vs.length then
      match mapE (fun p => convertValue p.1.1.2 p.1.2) (fs.zip vs).attach with
      | .error e => .error e
      | .ok ys => .ok (.tupleObj ys)
    else .error (.validationError "record arity does not match the schema")
  | .rowType fs, .rowObj _ vs =>
    if fs.length = vs.length then
      match mapE (fun p => convertValue p.1.1.2 p.1.2) (fs.zip vs).attach with
      | .error e => .error e
      | .ok ys => .ok (.tupleObj ys)
    else .error (.validationError "record arity does not match the schema")
  | .rowType fs, .dictObj kvs =>
    match mapE (fun p =>
        match lookupKV p.1.1 kvs with
        | some v => convertValue p.1.2 v
        | none => .error (.validationError "record is missing a schema field")) fs.attach with
    | .error e => .error e
    | .ok ys => .ok (.tupleObj ys)
  | .rowType _, _ => .error (.validationError "record shape does not match the row schema")
  | .listType t, .tupleObj vs =>
    match mapE (convertValue t) vs with
    | .error e => .error e
    | .ok ys => .ok (.tupleObj ys)
  | .listType _, _ => .error (.validationError "value shape does not match the list type")
  | .mapType _ tv, .dictObj kvs =>
    match mapE (fun p =>
        match convertValue tv p.2 with
        | .error e => .error e
        | .ok y => .ok (p.1, y)) kvs with
    | .error e => .error e
    | .ok ys => .ok (.dictObj ys)
  | .mapType _ _, _ => .error (.validationError "value shape does not match the map type")
  | _, v => .ok v
termination_by t _ => sizeOf t
decreasing_by
  all_goals simp_wf
  all_goals
    first
    | (obtain ⟨⟨⟨n, t⟩, v⟩, hmem⟩ := p
       have h2 := List.sizeOf_lt_of_mem (List.of_mem_zip hmem).1
       simp at h2
       simp
       omega)
    | (obtain ⟨⟨n, t⟩, hmem⟩ := p
       have h2 := List.sizeOf_lt_of_mem hmem
       simp at h2
       simp
       omega)

/-- Modelled from the spec: `convert(schema, record)` -- one record against
a full row schema. -/
def convert (schema : List (String × DataType)) (r : PyObj) :
    Except PyErr PyObj :=
  convertValue (.rowType schema) r

/-- The backtick character, which escapes path segments. -/
def backtickChar : Char := Char.ofNat 96

/-- Modelled from the spec: an unescaped segment that collides with a
reserved keyword is a ParseError (spec section 4.2).  The reserved set is
engine-defined; it is modelled as the example keyword from the source
docstring ("`Table` is a reserved keyword").  None of the identifiers
exercised by the claims is reserved. -/
def isReservedWord (s : String) : Bool :=
  s == "Table" || s == "table"

/-- State of the path segment scanner. -/
inductive PMode where
  | segStart
  | inPlain
  | inEscaped
  | afterEscaped

/-- Modelled from the spec: splitting a dot-qualified path into segments,
respecting backtick escaping (spec section 4.2, step 1; the splitting is
performed by the engine's parser, outside this source tree).  `cur` holds
the current segment's characters in reverse; `acc` the finished segments. -/
def pathSegsAux : PMode → List Char → List Char → List String →
    Except PyErr (List String)
  | .segStart, [], _, _ => .error (.parseError "empty segment")
  | .inPlain, [], cur, acc =>
    let seg := String.mk cur.reverse
    if isReservedWord seg then
      .error (.parseError "a reserved keyword must be escaped")
    else .ok (acc ++ [seg])
  | .inEscaped, [], _, _ => .error (.parseError "unterminated backtick escape")
  | .afterEscaped, [], _, acc => .ok acc
  | .segStart, c :: cs, _, acc =>
    if c = backtickChar then pathSegsAux .inEscaped cs [] acc
    else if c = '.' then .error (.parseError "empty segment")
    else pathSegsAux .inPlain cs [c] acc
  | .inPlain, c :: cs, cur, acc =>
    if c = '.' then
      let seg := String.mk cur.reverse
      if isReservedWord seg then
        .error (.parseError "a reserved keyword must be escaped")
      else pathSegsAux .segStart cs [] (acc ++ [seg])
    else if c = backtickChar then
      .error (.parseError "unexpected backtick inside a segment")
    else pathSegsAux .inPlain cs (c :: cur) acc
  | .inEscaped, c :: cs, cur, acc =>
    if c = backtickChar then
      pathSegsAux .afterEscaped cs [] (acc ++ [String.mk cur.reverse])
    else pathSegsAux .inEscaped cs (c :: cur) acc
  | .afterEscaped, c :: cs, _, acc =>
    if c = '.' then pathSegsAux .segStart cs [] acc
    else .error (.parseError "expected a dot after an escaped segment")

/-- Parse a path string into its one-to-three segments. -/
def parseSegments (path : String) : Except PyErr (List String) :=
  pathSegsAux .segStart path.toList [] []

/-- Modelled from the spec: `PathResolver.resolve` (spec section 4.2,
implemented by the engine's catalog path resolution, outside this source
tree).  One segment: the object, catalog and database default to the
session's current values; two segments: database and object; three
segments: fully qualified; anything else is a ParseError. -/
def resolve (path currentCatalog currentDatabase : String) :
    Except PyErr (String × String × String) :=
  match parseSegments path with
  | .error e => .error e
  | .ok [obj] => .ok (currentCatalog, currentDatabase, obj)
  | .ok [db, obj] => .ok (currentCatalog, db, obj)
  | .ok [cat, db, obj] => .ok (cat, db, obj)
  | .ok _ => .error (.parseError "expected one to three segments")

/-- Observable events of the serialization sink's lifecycle in
`_from_elements` and `from_pandas`: creation of the temporary directory
(`tempfile.mkdtemp()`) and file (`tempfile.NamedTemporaryFile`), the
serializer's write, the `with`-block close, the handoff of the file path
to the engine, `os.unlink`, and directory removal (which the source never
performs -- the constructor exists so its absence is expressible). -/
inductive SinkEvent where
  | mkdir (d : Nat)
  | createFile (f : Nat)
  | write (f : Nat)
  | closeFile (f : Nat)
  | handoff (f : Nat)
  | unlink (f : Nat)
  | rmdir (d : Nat)
deriving DecidableEq

/-- The result of `from_elements`: either a table built from expressions
via `fromValues`, or a table built from serialized rows. -/
inductive FromElementsResult where
  | fromValues (schema : Option (List (String × DataType))) (exprs : List Nat)
  | table (schema : List (String × DataType)) (rows : List PyObj)

/-- `TableEnvironment._from_elements` (source lines 1467-1488): create a
temporary directory and file, serialize the rows into the file inside a
`with` block, hand the file path to the engine, and `os.unlink` the file
in a `finally` clause.  `serializeOk` and `remoteOk` model success of the
serializer and of the gateway call; either failure propagates after the
`finally` cleanup.  The result is paired with the sink-event trace. -/
def fromElementsLower (rows : List PyObj) (schema : List (String × DataType))
    (serializeOk remoteOk : Bool) :
    Except PyErr FromElementsResult × List SinkEvent :=
  if serializeOk then
    if remoteOk then
      (.ok (.table schema rows),
       [.mkdir 0, .createFile 0, .write 0, .closeFile 0, .handoff 0, .unlink 0])
    else
      (.error (.transportError "the gateway call failed"),
       [.mkdir 0, .createFile 0, .write 0, .closeFile 0, .handoff 0, .unlink 0])
  else
    (.error (.transportError "serialization to the temporary file failed"),
     [.mkdir 0, .createFile 0, .write 0, .closeFile 0, .unlink 0])

/-- Is the element a `pyflink.table.Expression`? -/
def isExpr : PyObj → Bool
  | .exprObj _ => true
  | _ => false

/-- The identifier carried by an Expression element. -/
def exprId : PyObj → Nat
  | .exprObj i => i
  | _ => 0

/-- `verify_obj` (source lines 1410-1425): run the verifier on the element
when `verify_schema` is set (`verify_func`), then return the element
unchanged; with `verify_schema=False` the verifier is `lambda _: True`. -/
def verifyObj (V : DataType → PyObj → Except PyErr Unit) (verify_schema : Bool)
    (d : DataType) (o : PyObj) : Except PyErr PyObj :=
  if verify_schema then
    match V d o with
    | .error e => .error e
    | .ok _ => .ok o
  else .ok o

/-- Source lines 1440-1458 of `from_elements`: materialize the elements,
branch to `fromValues` when all elements are Expressions, reject a mixture
of Expression and non-Expression elements, then verify each element with
`verify_obj` (`vo`) and convert it with `schema.to_sql_type` (the two are
interleaved per element because the verification `map` is lazy), and
finally hand the fully built row list to `_from_elements`. -/
def convertAndShip
    (toSql : List (String × DataType) → PyObj → Except PyErr PyObj)
    (serializeOk remoteOk : Bool)
    (vo : PyObj → Except PyErr PyObj) (schema : List (String × DataType))
    (els : List PyObj) : Except PyErr FromElementsResult × List SinkEvent :=
  if !els.isEmpty && els.all isExpr then
    (.ok (.fromValues (some schema) (els.map exprId)), [])
  else if els.any isExpr then
    (.error (.valueError
      "It doesn't support part of the elements are Expression, while the others are not."),
     [])
  else
    match mapE (fun e =>
        match vo e with
        | .error e2 => .error e2
        | .ok o => toSql schema o) els with
    | .error e => (.error e, [])
    | .ok rows => fromElementsLower rows schema serializeOk remoteOk

/-- The inference path of `from_elements` (source lines 1431-1434): when no
full schema is given, infer the schema from the data, convert every element
with `_create_converter(schema)`, and continue with the shared tail, where
`verify_obj` is the identity (source lines 1427-1428). -/
def inferConvertShip
    (toSql : List (String × DataType) → PyObj → Except PyErr PyObj)
    (serializeOk remoteOk : Bool)
    (elements : List PyObj) (names : Option (List String)) :
    Except PyErr FromElementsResult × List SinkEvent :=
  match infer_schema elements names with
  | .error e => (.error e, [])
  | .ok s =>
    match mapE (convert s) elements with
    | .error e => (.error e, [])
    | .ok els => convertAndShip toSql serializeOk remoteOk (fun o => .ok o) s els

/-- `TableEnvironment.from_elements` (source lines 1409-1458), parameterised
by the external verifier factory `V` (`_create_type_verifier`) and by
`toSql` (`RowType.to_sql_type`), both implemented in `pyflink.table.types`
outside this source tree.  A `RowType` schema is used as given with the
verifier built for it; any other `DataType` is wrapped as the single-field
row schema `[("value", d)]` with the verifier built for the scalar type and
applied to each whole record; an absent schema or a name list triggers
inference and per-element conversion. -/
def from_elements (V : DataType → PyObj → Except PyErr Unit)
    (toSql : List (String × DataType) → PyObj → Except PyErr PyObj)
    (serializeOk remoteOk : Bool)
    (elements : List PyObj) (schema : SchemaArg) (verify_schema : Bool) :
    Except PyErr FromElementsResult × List SinkEvent :=
  match schema with
  | .dt (.rowType fs) =>
    convertAndShip toSql serializeOk remoteOk
      (verifyObj V verify_schema (.rowType fs)) fs elements
  | .dt d =>
    convertAndShip toSql serializeOk remoteOk
      (verifyObj V verify_schema d) [("value", d)] elements
  | .noSchema =>
    inferConvertShip toSql serializeOk remoteOk elements none
  | .names ns =>
    inferConvertShip toSql serializeOk remoteOk elements (some ns)

/-- Ceiling division on naturals: Python's `-(-a // b)` for `b > 0`. -/
def ceilDiv (a b : Nat) : Nat := (a + b - 1) / b

/-- The sink lifecycle of `TableEnvironment.from_pandas` (source lines
1545-1570).  The temporary directory and file are created first; the
serializer construction, the split-size computation
`step = -(-len(pdf) // splits_num)` and the slicing
`range(0, len(pdf), step)` run *before* the `try` block, so
`splits_num = 0` raises `ZeroDivisionError` and `len(pdf) = 0` makes
`step = 0`, which raises `ValueError` from `range` -- on both paths the
already created temporary file is never closed nor unlinked.  Once the
`try` block is reached, the `finally` clause unlinks the file on every
path. -/
def fromPandasSink (pdfLen splitsNum : Nat) (serializeOk remoteOk : Bool) :
    Except PyErr Unit × List SinkEvent :=
  let pre : List SinkEvent := [.mkdir 0, .createFile 0]
  if splitsNum = 0 then
    (.error .zeroDivisionError, pre)
  else if ceilDiv pdfLen splitsNum = 0 then
    (.error (.valueError "range() arg 3 must not be zero"), pre)
  else if serializeOk then
    if remoteOk then
      (.ok (), pre ++ [.write 0, .closeFile 0, .handoff 0, .unlink 0])
    else
      (.error (.transportError "the gateway call failed"),
       pre ++ [.write 0, .closeFile 0, .handoff 0, .unlink 0])
  else
    (.error (.transportError "serialization to the temporary file failed"),
     pre ++ [.write 0, .closeFile 0, .unlink 0])

/-- Which gateway constructor `StreamTableEnvironment.create` ends up
calling (source lines 1706-1726). -/
inductive STEnvCreated where
  | viaTableEnvCreate
  | viaStreamCreateWithSettings
  | viaStreamCreateWithConfig
  | viaStreamCreate
deriving DecidableEq

/-- `StreamTableEnvironment.create` (source lines 1657-1726).  The three
optional arguments are modelled by their presence; `environmentSettings`
carries whether the settings are in streaming mode.  The argument checks
are translated in source order. -/
def streamTableEnvironmentCreate (streamExecutionEnvironment : Option Unit)
    (tableConfig : Option Unit) (environmentSettings : Option Bool) :
    Except PyErr STEnvCreated :=
  if streamExecutionEnvironment = none ∧ tableConfig = none ∧
      environmentSettings = none then
    .error (.valueError
      "No argument found, the param 'stream_execution_environment' or 'environment_settings' is required.")
  else if streamExecutionEnvironment = none ∧ tableConfig ≠ none ∧
      environmentSettings = none then
    .error (.valueError
      "Only the param 'table_config' is found, the param 'stream_execution_environment' is also required.")
  else if tableConfig ≠ none ∧ environmentSettings ≠ none then
    .error (.valueError
      "The param 'table_config' and 'environment_settings' cannot be used at the same time")
  else
    match environmentSettings with
    | some isStreamingMode =>
      if !isStreamingMode then
        .error (.valueError
          "The environment settings for StreamTableEnvironment must be set to streaming mode.")
      else
        match streamExecutionEnvironment with
        | none => .ok .viaTableEnvCreate
        | some _ => .ok .viaStreamCreateWithSettings
    | none =>
      match tableConfig with
      | some _ => .ok .viaStreamCreateWithConfig
      | none => .ok .viaStreamCreate

/-- The value at record `i`, column `j` of a record sequence, when the
record exists, is a RawRecord, and has a `j`-th field. -/
def valueAt (records : List PyObj) (i j : Nat) : Option PyObj :=
  match records[i]? with
  | none => none
  | some r =>
    match recordFields r with
    | .error _ => none
    | .ok f =>
      match f[j]? with
      | none => none
      | some p => some p.2

/-- Two column types with no common widened type: they differ and at least
one of them is off the numeric lattice. -/
def incompatible (t1 t2 : DataType) : Prop :=
  t1 ≠ t2 ∧ (latticeRank t1 = none ∨ latticeRank t2 = none)

/-- Does the result hold a Python `ValueError`? -/
def isValueErr : Except PyErr α → Bool
  | .error (.valueError _) => true
  | _ => false

/-- A verifier that accepts everything (used to instantiate the
verifier parameter on concrete runs). -/
def trivialVerifier : DataType → PyObj → Except PyErr Unit :=
  fun _ _ => .ok ()

/-- A verifier that rejects everything (used to instantiate the
verifier parameter on concrete runs). -/
def failingVerifier : DataType → PyObj → Except PyErr Unit :=
  fun _ _ => .error (.validationError "field value: the value does not match the type")

/-- A `to_sql_type` that returns the element unchanged (used to
instantiate the conversion parameter on concrete runs). -/
def identityToSql : List (String × DataType) → PyObj → Except PyErr PyObj :=
  fun _ o => .ok o

theorem isErr_iff {x : Except PyErr α} : isErr x = true ↔ ∃ e, x = .error e := by
  cases x <;> simp [isErr]

theorem mapE_congr {f g : α → Except PyErr β} {xs : List α}
    (h : ∀ x ∈ xs, f x = g x) : mapE f xs = mapE g xs := by
  induction xs with
  | nil => rfl
  | cons x xs ih =>
    have hx : f x = g x := h x (by simp)
    have hxs : mapE f xs = mapE g xs := ih fun y hy => h y (by simp [hy])
    simp only [mapE, hx, hxs]

theorem mapE_isErr_of_mem {f : α → Except PyErr β} {xs : List α} {x : α}
    (hx : x ∈ xs) (hf : isErr (f x) = true) : isErr (mapE f xs) = true := by
  induction xs with
  | nil => cases hx
  | cons y ys ih =>
    rcases List.mem_cons.mp hx with rfl | hmem
    · rcases isErr_iff.mp hf with ⟨e, he⟩
      simp [mapE, he, isErr]
    · cases hfy : f y with
      | error e => simp [mapE, hfy, isErr]
      | ok b =>
        have := ih hmem
        rcases isErr_iff.mp this with ⟨e, he⟩
        simp [mapE, hfy, he, isErr]

theorem mapE_ok_length {f : α → Except PyErr β} {xs : List α} {ys : List β}
    (h : mapE f xs = .ok ys) : ys.length = xs.length := by
  induction xs generalizing ys with
  | nil => simp [mapE] at h; simp [← h]
  | cons x xs ih =>
    cases hfx : f x with
    | error e => simp [mapE, hfx] at h
    | ok b =>
      cases hrest : mapE f xs with
      | error e => simp [mapE, hfx, hrest] at h
      | ok bs =>
        simp [mapE, hfx, hrest] at h
        subst h
        simp [ih hrest]

theorem mapE_ok_get {f : α → Except PyErr β} {xs : List α} {ys : List β}
    (h : mapE f xs = .ok ys) {i : Nat} {x : α}
    (hx : xs[i]? = some x) : ∃ y, ys[i]? = some y ∧ f x = .ok y := by
  induction xs generalizing ys i with
  | nil => simp at hx
  | cons a as ih =>
    cases hfa : f a with
    | error e => simp [mapE, hfa] at h
    | ok b =>
      cases hrest : mapE f as with
      | error e => simp [mapE, hfa, hrest] at h
      | ok bs =>
        simp [mapE, hfa, hrest] at h
        subst h
        cases i with
        | zero =>
          simp at hx
          subst hx
          exact ⟨b, by simp, hfa⟩
        | succ n =>
          simp at hx ⊢
          exact ih hrest hx

theorem zip_getElem? {as : List α} {bs : List β} {i : Nat} {a : α} {b : β}
    (ha : as[i]? = some a) (hb : bs[i]? = some b) :
    (as.zip bs)[i]? = some (a, b) := by
  induction as generalizing bs i with
  | nil => simp at ha
  | cons x xs ih =>
    cases bs with
    | nil => simp at hb
    | cons y ys =>
      cases i with
      | zero => simp_all
      | succ n =>
        simp at ha hb ⊢
        exact ih ha hb

theorem atomEq_eq {a b : DataType} (h : atomEq a b = true) : a = b := by
  cases a <;> cases b <;> simp_all [atomEq]

theorem widen_ok_cases {a b c : DataType} (h : widen a b = .ok c) :
    c = a ∨ c = b := by
  cases a <;> cases b <;> simp_all [widen, latticeRank, atomEq]

theorem widen_ok_nonlattice_left {a b c : DataType} (h : widen a b = .ok c)
    (ha : latticeRank a = none) : b = a ∧ c = a := by
  cases a <;> cases b <;> simp_all [widen, latticeRank, atomEq]

theorem widen_ok_nonlattice_right {a b c : DataType} (h : widen a b = .ok c)
    (hb : latticeRank b = none) : a = b ∧ c = b := by
  cases a <;> cases b <;> simp_all [widen, latticeRank, atomEq]

theorem widen_double_left {b c : DataType}
    (h : widen .doubleType b = .ok c) : c = .doubleType := by
  cases b <;> simp_all [widen, latticeRank, atomEq]

theorem widen_double_right {a c : DataType}
    (h : widen a .doubleType = .ok c) : c = .doubleType := by
  cases a <;> simp_all [widen, latticeRank, atomEq]

theorem foldE_widen_double {ts : List DataType} {t0 u : DataType}
    (h : foldE widen t0 ts = .ok u) (hmem : .doubleType ∈ t0 :: ts) :
    u = .doubleType := by
  induction ts generalizing t0 with
  | nil =>
    simp [foldE] at h
    rcases List.mem_singleton.mp hmem with rfl
    exact h.symm ▸ rfl
  | cons s ts ih =>
    unfold foldE at h
    cases hw : widen t0 s with
    | error e => rw [hw] at h; cases h
    | ok m =>
      rw [hw] at h
      rcases List.mem_cons.mp hmem with h0 | hrest
      · subst h0
        have hm : m = .doubleType := widen_double_left hw
        exact ih h (by simp [hm])
      · rcases List.mem_cons.mp hrest with h1 | h2
        · subst h1
          have hm : m = .doubleType := widen_double_right hw
          exact ih h (by simp [hm])
        · exact ih h (by simp [h2])

theorem foldE_widen_nonlattice_all {ts : List DataType} {t0 u t : DataType}
    (h : foldE widen t0 ts = .ok u) (hmem : t ∈ t0 :: ts)
    (ht : latticeRank t = none) :
    ∀ s ∈ t0 :: ts, s = t := by
  induction ts generalizing t0 with
  | nil =>
    rcases List.mem_singleton.mp hmem with rfl
    intro s hs
    exact List.mem_singleton.mp hs
  | cons s0 ts ih =>
    unfold foldE at h
    cases hw : widen t0 s0 with
    | error e => rw [hw] at h; cases h
    | ok m =>
      rw [hw] at h
      rcases List.mem_cons.mp hmem with h0 | hrest
      · subst h0
        obtain ⟨hs0, hm⟩ := widen_ok_nonlattice_left hw ht
        have hall := ih h (by simp [hm])
        intro s hs
        rcases List.mem_cons.mp hs with rfl | hs2
        · rfl
        · rcases List.mem_cons.mp hs2 with rfl | hs3
          · exact hs0
          · exact hall s (by simp [hs3])
      · rcases List.mem_cons.mp hrest with h1 | h2
        · subst h1
          obtain ⟨ht0, hm⟩ := widen_ok_nonlattice_right hw ht
          have hall := ih h (by simp [hm])
          intro s hs
          rcases List.mem_cons.mp hs with rfl | hs2
          · exact ht0
          · rcases List.mem_cons.mp hs2 with rfl | hs3
            · rfl
            · exact hall s (by simp [hs3])
        · have hall := ih h (by simp [h2])
          have hm : m = t := hall m (by simp)
          have hrm : latticeRank m = none := hm ▸ ht
          intro s hs
          rcases List.mem_cons.mp hs with rfl | hs2
          · rcases widen_ok_cases hw with hc | hc
            · exact (hc ▸ hm : s = t)
            · obtain ⟨hba, _⟩ := widen_ok_nonlattice_right hw (hc ▸ hrm)
              exact hba.trans ((hc ▸ hm : s0 = t))
          · rcases List.mem_cons.mp hs2 with rfl | hs3
            · rcases widen_ok_cases hw with hc | hc
              · obtain ⟨hba, _⟩ := widen_ok_nonlattice_left hw (hc ▸ hrm)
                exact hba.trans ((hc ▸ hm : t0 = t))
              · exact (hc ▸ hm : s = t)
            · exact hall s (by simp [hs3])

theorem foldE_widen_incompatible {ts : List DataType} {t0 : DataType}
    {t1 t2 : DataType} (h1 : t1 ∈ t0 :: ts) (h2 : t2 ∈ t0 :: ts)
    (hinc : incompatible t1 t2) :
    isErr (foldE widen t0 ts) = true := by
  cases hres : foldE widen t0 ts with
  | error e => simp [isErr]
  | ok u =>
    exfalso
    rcases hinc with ⟨hne, hnl | hnl⟩
    · exact hne ((foldE_widen_nonlattice_all hres h1 hnl t2 h2).symm)
    · exact hne (foldE_widen_nonlattice_all hres h2 hnl t1 h1)

/-- C6: for every current catalog and current database, path resolution
maps `tab1` to (current catalog, current database, tab1), `db1.tab1` to
(current catalog, db1, tab1) and `cat1.db1.tab1` to (cat1, db1, tab1),
exactly reproducing the documented resolution table. -/
theorem C6_path_resolution_table (currentCatalog currentDatabase : String) :
    resolve "tab1" currentCatalog currentDatabase =
      .ok (currentCatalog, currentDatabase, "tab1") ∧
    resolve "db1.tab1" currentCatalog currentDatabase =
      .ok (currentCatalog, "db1", "tab1") ∧
    resolve "cat1.db1.tab1" currentCatalog currentDatabase =
      .ok ("cat1", "db1", "tab1") :=
  ⟨rfl, rfl, rfl⟩

/-- C10: `StreamTableEnvironment.create` fails with a ValueError exactly
when called with no arguments, with only `table_config`, with both
`table_config` and `environment_settings`, or with settings that are not
in streaming mode; every other combination constructs an environment. -/
theorem C10_stream_create_validation :
    ∀ (env tc : Option Unit) (es : Option Bool),
      isErr (streamTableEnvironmentCreate env tc es) = true ↔
        ((env = none ∧ tc = none ∧ es = none) ∨
         (env = none ∧ tc ≠ none ∧ es = none) ∨
         (tc ≠ none ∧ es ≠ none) ∨
         es = some false) := by
  decide

/-- C4 counterexample: `from_pandas` called with `splits_num = 0` on a
one-row DataFrame raises `ZeroDivisionError` after creating the temporary
sink file and before the `try` block, so the sink is neither closed nor
unlinked on that exit path -- refuting the claim that the sink's temporary
storage is cleaned up on every exit path. -/
theorem C4_counterexample :
    fromPandasSink 1 0 true true =
      (.error .zeroDivisionError, [.mkdir 0, .createFile 0]) ∧
    SinkEvent.unlink 0 ∉ (fromPandasSink 1 0 true true).2 ∧
    SinkEvent.closeFile 0 ∉ (fromPandasSink 1 0 true true).2 :=
  ⟨rfl, by decide, by decide⟩

/-- C4 (amended): in `_from_elements` the sink file is created fresh
before the first write and is closed and unlinked on every exit path; in
`from_pandas` the same holds on every path that reaches the serialization
`try` block (`splits_num ≠ 0` and a non-empty DataFrame), while an error
between sink creation and the `try` block leaks the file; in both
functions the temporary directory created to host the sink file is never
removed. -/
theorem C4_sink_cleanup_amended :
    (∀ (rows : List PyObj) (schema : List (String × DataType))
        (serializeOk remoteOk : Bool),
      ∃ rest, (fromElementsLower rows schema serializeOk remoteOk).2 =
          .mkdir 0 :: .createFile 0 :: rest ∧
        SinkEvent.unlink 0 ∈ (fromElementsLower rows schema serializeOk remoteOk).2 ∧
        SinkEvent.closeFile 0 ∈ (fromElementsLower rows schema serializeOk remoteOk).2 ∧
        SinkEvent.rmdir 0 ∉ (fromElementsLower rows schema serializeOk remoteOk).2) ∧
    (∀ (pdfLen splitsNum : Nat) (serializeOk remoteOk : Bool),
      splitsNum ≠ 0 → pdfLen ≠ 0 →
        SinkEvent.unlink 0 ∈ (fromPandasSink pdfLen splitsNum serializeOk remoteOk).2 ∧
        SinkEvent.closeFile 0 ∈ (fromPandasSink pdfLen splitsNum serializeOk remoteOk).2 ∧
        SinkEvent.rmdir 0 ∉ (fromPandasSink pdfLen splitsNum serializeOk remoteOk).2) := by
  constructor
  · intro rows schema serializeOk remoteOk
    cases serializeOk <;> cases remoteOk <;>
      (refine ⟨_, rfl, ?_, ?_, ?_⟩ <;> simp [fromElementsLower])
  · intro pdfLen splitsNum serializeOk remoteOk hs hl
    have hstep : ¬ ceilDiv pdfLen splitsNum = 0 := by
      unfold ceilDiv
      intro h0
      rw [Nat.div_eq_zero_iff (Nat.pos_of_ne_zero hs)] at h0
      omega
    unfold fromPandasSink
    cases serializeOk <;> cases remoteOk <;> simp [hs, hstep]

/-- C4 amended, witness at `pdfLen = 1`, `splits_num = 1`. -/
theorem C4_sink_cleanup_amended_witness :
    (1 : Nat) ≠ 0 ∧ SinkEvent.unlink 0 ∈ (fromPandasSink 1 1 true true).2 :=
  ⟨by decide, (C4_sink_cleanup_amended.2 1 1 true true (by decide) (by decide)).1⟩

/-- C9 counterexample: with no schema hint, a sequence mixing an
Expression and a plain value makes `from_elements` run schema inference
on the raw elements first; inference fails on the Expression element with
a schema error, so `from_elements` does not raise ValueError, refuting
the claim for this input. -/
theorem C9_counterexample :
    (from_elements trivialVerifier identityToSql true true
        [.exprObj 0, .intObj 1] .noSchema true).1 =
      .error (.schemaError "can not infer schema from a record of this shape") ∧
    isValueErr (from_elements trivialVerifier identityToSql true true
        [.exprObj 0, .intObj 1] .noSchema true).1 = false :=
  ⟨rfl, rfl⟩

/-- C9 (amended): when the schema hint is a DataType (a RowType or a
scalar type) -- so that no inference runs -- a non-empty element sequence
containing at least one Expression and at least one non-Expression makes
`from_elements` raise the mixed-elements ValueError; with no schema or a
name list, schema inference runs on the raw elements first and its error
preempts the mixed-elements check. -/
theorem C9_mixed_expressions_amended
    (V : DataType → PyObj → Except PyErr Unit)
    (toSql : List (String × DataType) → PyObj → Except PyErr PyObj)
    (serializeOk remoteOk : Bool) (elements : List PyObj) (d : DataType)
    (verify_schema : Bool)
    (hexpr : ∃ e ∈ elements, isExpr e = true)
    (hnon : ∃ e ∈ elements, isExpr e = false) :
    from_elements V toSql serializeOk remoteOk elements (.dt d) verify_schema =
      (.error (.valueError
        "It doesn't support part of the elements are Expression, while the others are not."),
       []) := by
  have hall : elements.all isExpr = false := by
    rcases hnon with ⟨e, he, hne⟩
    exact List.all_eq_false.mpr ⟨e, he, by simp [hne]⟩
  have hany : elements.any isExpr = true := by
    rcases hexpr with ⟨e, he, hme⟩
    exact List.any_eq_true.mpr ⟨e, he, hme⟩
  have key : ∀ (vo : PyObj → Except PyErr PyObj) (s : List (String × DataType)),
      convertAndShip toSql serializeOk remoteOk vo s elements =
        (.error (.valueError
          "It doesn't support part of the elements are Expression, while the others are not."),
         []) := by
    intro vo s
    unfold convertAndShip
    simp [hall, hany]
  cases d <;> exact key _ _

/-- C9 amended, witness: one Expression and one integer element with a
long scalar schema hint. -/
theorem C9_mixed_expressions_amended_witness :
    (∃ e ∈ [PyObj.exprObj 0, PyObj.intObj 1], isExpr e = true) ∧
    (∃ e ∈ [PyObj.exprObj 0, PyObj.intObj 1], isExpr e = false) ∧
    from_elements trivialVerifier identityToSql true true
        [.exprObj 0, .intObj 1] (.dt .longType) true =
      (.error (.valueError
        "It doesn't support part of the elements are Expression, while the others are not."),
       []) := by
  refine ⟨⟨.exprObj 0, by simp, rfl⟩, ⟨.intObj 1, by simp, rfl⟩, ?_⟩
  exact C9_mixed_expressions_amended trivialVerifier identityToSql true true
    [.exprObj 0, .intObj 1] .longType true
    ⟨.exprObj 0, by simp, rfl⟩ ⟨.intObj 1, by simp, rfl⟩

theorem convertAndShip_table_schema
    {toSql : List (String × DataType) → PyObj → Except PyErr PyObj}
    {sOk rOk : Bool} {vo : PyObj → Except PyErr PyObj}
    {s : List (String × DataType)} {els : List PyObj}
    {s' : List (String × DataType)} {rows : List PyObj} {tr : List SinkEvent}
    (h : convertAndShip toSql sOk rOk vo s els = (.ok (.table s' rows), tr)) :
    s' = s := by
  unfold convertAndShip at h
  split at h
  · simp at h
  · split at h
    · simp at h
    · split at h
      · simp at h
      · cases sOk <;> cases rOk <;> (simp [fromElementsLower] at h; try tauto)

theorem convertAndShip_congr
    {toSql : List (String × DataType) → PyObj → Except PyErr PyObj}
    {sOk rOk : Bool} {vo1 vo2 : PyObj → Except PyErr PyObj}
    {s : List (String × DataType)} {els : List PyObj}
    (h : ∀ e ∈ els, vo1 e = vo2 e) :
    convertAndShip toSql sOk rOk vo1 s els =
      convertAndShip toSql sOk rOk vo2 s els := by
  unfold convertAndShip
  have hfun : ∀ e ∈ els,
      (match vo1 e with
       | .error e2 => (.error e2 : Except PyErr PyObj)
       | .ok o => toSql s o) =
      (match vo2 e with
       | .error e2 => .error e2
       | .ok o => toSql s o) := fun e he => by rw [h e he]
  rw [mapE_congr hfun]

/-- C2: a scalar (non-row) DataType schema hint is wrapped as the
single-field row schema `[("value", d)]`; each whole record is verified as
a scalar of type `d` (`verify_obj` is built from the verifier for `d`),
and any table produced carries exactly that one-field schema. -/
theorem C2_scalar_datatype_wrapped
    (V : DataType → PyObj → Except PyErr Unit)
    (toSql : List (String × DataType) → PyObj → Except PyErr PyObj)
    (serializeOk remoteOk : Bool) (elements : List PyObj)
    (d : DataType) (verify_schema : Bool) (hd : isRowDT d = false) :
    from_elements V toSql serializeOk remoteOk elements (.dt d) verify_schema =
      convertAndShip toSql serializeOk remoteOk
        (verifyObj V verify_schema d) [("value", d)] elements ∧
    ∀ s rows tr,
      from_elements V toSql serializeOk remoteOk elements (.dt d) verify_schema =
        (.ok (.table s rows), tr) → s = [("value", d)] := by
  have h1 : from_elements V toSql serializeOk remoteOk elements (.dt d) verify_schema =
      convertAndShip toSql serializeOk remoteOk
        (verifyObj V verify_schema d) [("value", d)] elements := by
    cases d <;> first | rfl | simp [isRowDT] at hd
  refine ⟨h1, fun s rows tr heq => ?_⟩
  rw [h1] at heq
  exact convertAndShip_table_schema heq

/-- C2 witness at the scalar type `long` and one integer element. -/
theorem C2_scalar_datatype_wrapped_witness :
    isRowDT .longType = false ∧
    from_elements trivialVerifier identityToSql true true [.intObj 7]
        (.dt .longType) true =
      convertAndShip identityToSql true true
        (verifyObj trivialVerifier true .longType) [("value", .longType)]
        [.intObj 7] :=
  ⟨rfl, (C2_scalar_datatype_wrapped trivialVerifier identityToSql true true
    [.intObj 7] .longType true rfl).1⟩

/-- C1: for every verifier behaviour, schema hint that is a DataType (a
RowType or a scalar type) and element sequence on which the verifier
succeeds, `from_elements` with `verify_schema=False` returns exactly the
same result and sink trace as with `verify_schema=True`: the flag only
elides the check and never changes the conversion output. -/
theorem C1_verify_schema_flag_irrelevant
    (V : DataType → PyObj → Except PyErr Unit)
    (toSql : List (String × DataType) → PyObj → Except PyErr PyObj)
    (serializeOk remoteOk : Bool) (elements : List PyObj) (d : DataType)
    (hok : ∀ e ∈ elements, V d e = .ok ()) :
    from_elements V toSql serializeOk remoteOk elements (.dt d) true =
      from_elements V toSql serializeOk remoteOk elements (.dt d) false := by
  cases d <;> simp only [from_elements] <;>
    exact convertAndShip_congr fun e he => by simp [verifyObj, hok e he]

/-- C1 witness: a row schema hint and one conforming element. -/
theorem C1_verify_schema_flag_irrelevant_witness :
    (∀ e ∈ [PyObj.intObj 7],
      trivialVerifier (.rowType [("a", .longType)]) e = .ok ()) ∧
    from_elements trivialVerifier identityToSql true true [.intObj 7]
        (.dt (.rowType [("a", .longType)])) true =
      from_elements trivialVerifier identityToSql true true [.intObj 7]
        (.dt (.rowType [("a", .longType)])) false := by
  have h : ∀ e ∈ [PyObj.intObj 7],
      trivialVerifier (.rowType [("a", .longType)]) e = .ok () :=
    fun e _ => rfl
  exact ⟨h, C1_verify_schema_flag_irrelevant trivialVerifier identityToSql
    true true [.intObj 7] (.rowType [("a", .longType)]) h⟩

/-- C5: when some record of a record sequence (no Expressions) fails
schema verification, `from_elements` with a DataType schema hint returns
an error and its sink trace is empty: the whole batch is aborted and
nothing -- in particular no partially converted batch -- is ever handed
to the serialization sink or the engine. -/
theorem C5_validation_error_aborts_batch
    (V : DataType → PyObj → Except PyErr Unit)
    (toSql : List (String × DataType) → PyObj → Except PyErr PyObj)
    (serializeOk remoteOk : Bool) (elements : List PyObj) (d : DataType)
    (hnoexpr : ∀ e ∈ elements, isExpr e = false)
    (hfail : ∃ e ∈ elements, isErr (V d e) = true) :
    isErr (from_elements V toSql serializeOk remoteOk elements
      (.dt d) true).1 = true ∧
    (from_elements V toSql serializeOk remoteOk elements (.dt d) true).2 = [] := by
  have key : ∀ s : List (String × DataType),
      isErr (convertAndShip toSql serializeOk remoteOk
        (verifyObj V true d) s elements).1 = true ∧
      (convertAndShip toSql serializeOk remoteOk
        (verifyObj V true d) s elements).2 = [] := by
    intro s
    obtain ⟨e0, he0, hV⟩ := hfail
    have hall : elements.all isExpr = false :=
      List.all_eq_false.mpr ⟨e0, he0, by simp [hnoexpr e0 he0]⟩
    have hany : elements.any isExpr = false :=
      List.any_eq_false.mpr fun x hx => by simp [hnoexpr x hx]
    have hmap : isErr (mapE (fun e =>
        match verifyObj V true d e with
        | .error e2 => (.error e2 : Except PyErr PyObj)
        | .ok o => toSql s o) elements) = true := by
      apply mapE_isErr_of_mem he0
      rcases isErr_iff.mp hV with ⟨er, her⟩
      simp [verifyObj, her, isErr]
    rcases isErr_iff.mp hmap with ⟨er, hermap⟩
    unfold convertAndShip
    simp [hall, hany, hermap, isErr]
  cases d <;> exact key _

/-- C5 witness: a rejecting verifier on one integer element. -/
theorem C5_validation_error_aborts_batch_witness :
    (∀ e ∈ [PyObj.intObj 1], isExpr e = false) ∧
    (∃ e ∈ [PyObj.intObj 1], isErr (failingVerifier .longType e) = true) ∧
    isErr (from_elements failingVerifier identityToSql true true
      [.intObj 1] (.dt .longType) true).1 = true ∧
    (from_elements failingVerifier identityToSql true true
      [.intObj 1] (.dt .longType) true).2 = [] := by
  have h1 : ∀ e ∈ [PyObj.intObj 1], isExpr e = false := by
    intro e he
    rcases List.mem_singleton.mp he with rfl
    rfl
  have h2 : ∃ e ∈ [PyObj.intObj 1], isErr (failingVerifier .longType e) = true :=
    ⟨.intObj 1, by simp, rfl⟩
  have hc := C5_validation_error_aborts_batch failingVerifier identityToSql
    true true [.intObj 1] .longType h1 h2
  exact ⟨h1, h2, hc.1, hc.2⟩

/-- C8: conversion of a mapping-shaped record is independent of the
iteration order of the unordered container: two association lists with
the same name lookups convert identically under every schema (values are
looked up by name and placed positionally), so conversion is a
deterministic function of the record's contents. -/
theorem C8_convert_mapping_order_independent
    (schema : List (String × DataType)) (kvs1 kvs2 : List (String × PyObj))
    (h : ∀ k, lookupKV k kvs1 = lookupKV k kvs2) :
    convert schema (.dictObj kvs1) = convert schema (.dictObj kvs2) := by
  unfold convert
  simp only [convertValue]
  rw [mapE_congr fun p _ => by rw [h p.1.1]]

/-- C8 witness: the same two-field mapping in both key orders. -/
theorem C8_convert_mapping_order_independent_witness :
    (∀ k, lookupKV k [("a", PyObj.intObj 1), ("b", PyObj.strObj "x")] =
          lookupKV k [("b", PyObj.strObj "x"), ("a", PyObj.intObj 1)]) ∧
    convert [("a", .longType), ("b", .stringType)]
        (.dictObj [("a", .intObj 1), ("b", .strObj "x")]) =
      convert [("a", .longType), ("b", .stringType)]
        (.dictObj [("b", .strObj "x"), ("a", .intObj 1)]) := by
  have h : ∀ k, lookupKV k [("a", PyObj.intObj 1), ("b", PyObj.strObj "x")] =
      lookupKV k [("b", PyObj.strObj "x"), ("a", PyObj.intObj 1)] := by
    intro k
    simp only [lookupKV]
    by_cases h1 : ("a" == k) = true <;> by_cases h2 : ("b" == k) = true <;>
      simp [h1, h2]
    exact ((by decide : ¬ ("a" : String) = "b")
      ((eq_of_beq h1).trans (eq_of_beq h2).symm)).elim
  exact ⟨h, C8_convert_mapping_order_independent
    [("a", .longType), ("b", .stringType)]
    [("a", .intObj 1), ("b", .strObj "x")]
    [("b", .strObj "x"), ("a", .intObj 1)] h⟩

theorem inferColumnType_double {ts : List DataType} {colTy : DataType}
    (h : inferColumnType ts = .ok colTy) (hd : .doubleType ∈ ts) :
    colTy = .doubleType := by
  cases ts with
  | nil => cases hd
  | cons t ts' => exact foldE_widen_double h hd

theorem inferColumnType_incompatible {ts : List DataType} {t1 t2 : DataType}
    (h1 : t1 ∈ ts) (h2 : t2 ∈ ts) (hinc : incompatible t1 t2) :
    isErr (inferColumnType ts) = true := by
  cases ts with
  | nil => cases h1
  | cons t ts' => exact foldE_widen_incompatible h1 h2 hinc

theorem resolveNames_ok_length {f0 : List (String × PyObj)}
    {names : Option (List String)} {fn : List String}
    (h : resolveNames f0 names = .ok fn) : fn.length = f0.length := by
  cases names with
  | none =>
    simp [resolveNames] at h
    simp [← h]
  | some ns =>
    simp only [resolveNames] at h
    split at h
    · cases h
      assumption
    · cases h

theorem checkShape_ok {f0 : List (String × PyObj)} {r : PyObj} {vs : List PyObj}
    (h : checkShape f0 r = .ok vs) :
    ∃ f, recordFields r = .ok f ∧ f.map Prod.fst = f0.map Prod.fst ∧
      vs = f.map Prod.snd := by
  unfold checkShape at h
  cases hf : recordFields r with
  | error e => rw [hf] at h; cases h
  | ok f =>
    rw [hf] at h
    simp only at h
    split at h
    · cases h
      exact ⟨f, rfl, by assumption, rfl⟩
    · cases h

theorem valueAt_eq_some {records : List PyObj} {i j : Nat} {v : PyObj}
    (h : valueAt records i j = some v) :
    ∃ r f p, records[i]? = some r ∧ recordFields r = .ok f ∧
      f[j]? = some p ∧ p.2 = v := by
  unfold valueAt at h
  split at h
  · cases h
  next r hr =>
    split at h
    · cases h
    next f hf =>
      split at h
      · cases h
      next p hp =>
        cases h
        exact ⟨r, f, p, hr, hf, hp, rfl⟩

theorem infer_ok_column {records : List PyObj} {names : Option (List String)}
    {s : List (String × DataType)}
    (h : infer_schema records names = .ok s)
    {j i0 : Nat} {v0 : PyObj} (hv0 : valueAt records i0 j = some v0) :
    ∃ (ts : List DataType) (colTy : DataType) (nm : String),
      s[j]? = some (nm, colTy) ∧ inferColumnType ts = .ok colTy ∧
      ∀ i v, valueAt records i j = some v →
        ∃ t, inferType v = .ok t ∧ t ∈ ts := by
  cases records with
  | nil => simp [infer_schema] at h
  | cons r0 rest =>
    unfold infer_schema at h
    cases hf0 : recordFields r0 with
    | error e => simp [hf0] at h
    | ok f0 =>
      simp only [hf0] at h
      cases hrn : resolveNames f0 names with
      | error e => simp [hrn] at h
      | ok fieldNames =>
        simp only [hrn] at h
        cases hsh : mapE (checkShape f0) (r0 :: rest) with
        | error e => simp [hsh] at h
        | ok rowsVals =>
          simp only [hsh] at h
          cases hcols : mapE (inferColumn rowsVals) (List.range f0.length) with
          | error e => simp [hcols] at h
          | ok colTys =>
            simp only [hcols] at h
            injection h with h
            subst h
            obtain ⟨r', f', p', hr', hf', hp', hpv'⟩ := valueAt_eq_some hv0
            obtain ⟨vs', hvs', hcs'⟩ := mapE_ok_get hsh hr'
            obtain ⟨f'', hf''0, hnames', hvs'eq⟩ := checkShape_ok hcs'
            rw [hf'] at hf''0
            cases hf''0
            have hjlt : j < f0.length := by
              have hj1 : j < f'.length := (List.getElem?_eq_some.mp hp').1
              have hlen : f'.length = f0.length := by
                have := congrArg List.length hnames'
                simpa using this
              omega
            obtain ⟨colTy, hctj, hcolj⟩ :=
              mapE_ok_get hcols (List.getElem?_range hjlt)
            unfold inferColumn at hcolj
            split at hcolj
            next e hts => cases hcolj
            next ts hts =>
              have hfnlen := resolveNames_ok_length hrn
              have hjf : j < fieldNames.length := by omega
              refine ⟨ts, colTy, fieldNames.get ⟨j, hjf⟩,
                zip_getElem? (by simp) hctj, hcolj, ?_⟩
              intro i v hv
              obtain ⟨r, f, p, hr, hf, hp, hpv⟩ := valueAt_eq_some hv
              obtain ⟨vs, hvs, hcs⟩ := mapE_ok_get hsh hr
              obtain ⟨f2, hf2, hnames, hvseq⟩ := checkShape_ok hcs
              rw [hf] at hf2
              cases hf2
              obtain ⟨t, hts', hext⟩ := mapE_ok_get hts hvs
              have hvj : vs[j]? = some v := by
                rw [hvseq, List.getElem?_map, hp]
                simp [hpv]
              simp only [hvj] at hext
              exact ⟨t, hext, List.getElem?_mem hts'⟩

/-- C7: under schema inference (no full schema hint), a column that
contains both an integer and a floating-point value infers to the
floating-point type `double` (the top of the fixed widening lattice
boolean < integer < long < float < double); and a column mixing a string
and an integer value makes inference fail with a SchemaError, because
the string type does not lie on the numeric lattice and never widens
into it. -/
theorem C7_numeric_widening_and_string_conflict :
    (∀ (records : List PyObj) (names : Option (List String))
        (s : List (String × DataType)) (j : Nat),
      infer_schema records names = .ok s →
      (∃ i n, valueAt records i j = some (.intObj n)) →
      (∃ i t, valueAt records i j = some (.floatObj t)) →
      ∃ nm, s[j]? = some (nm, .doubleType)) ∧
    (∀ (records : List PyObj) (names : Option (List String)) (j : Nat),
      (∃ i t, valueAt records i j = some (.strObj t)) →
      (∃ i n, valueAt records i j = some (.intObj n)) →
      isErr (infer_schema records names) = true) := by
  constructor
  · intro records names s j hok hint hfloat
    obtain ⟨i1, n1, hv1⟩ := hint
    obtain ⟨ts, colTy, nm, hsj, hcolty, hall⟩ := infer_ok_column hok hv1
    obtain ⟨i2, t2v, hv2⟩ := hfloat
    obtain ⟨t2, ht2, ht2mem⟩ := hall i2 _ hv2
    have ht2' : t2 = .doubleType := by
      simp [inferType] at ht2
      exact ht2.symm
    subst ht2'
    have hcd := inferColumnType_double hcolty ht2mem
    subst hcd
    exact ⟨nm, hsj⟩
  · intro records names j hstr hint
    cases hres : infer_schema records names with
    | error e => simp [isErr]
    | ok s =>
      exfalso
      obtain ⟨i1, t1v, hv1⟩ := hstr
      obtain ⟨ts, colTy, nm, hsj, hcolty, hall⟩ := infer_ok_column hres hv1
      obtain ⟨t1, ht1, hm1⟩ := hall i1 _ hv1
      obtain ⟨i2, n2, hv2⟩ := hint
      obtain ⟨t2, ht2, hm2⟩ := hall i2 _ hv2
      have h1 : t1 = .stringType := by
        simp [inferType] at ht1
        exact ht1.symm
      have h2 : t2 = .longType := by
        simp [inferType] at ht2
        exact ht2.symm
      subst h1 h2
      have herr := inferColumnType_incompatible hm1 hm2
        ⟨by simp, Or.inl rfl⟩
      rw [hcolty] at herr
      simp [isErr] at herr

/-- C7 witness: an int/float column infers to double; a string/int
column fails with a SchemaError. -/
theorem C7_numeric_widening_and_string_conflict_witness :
    infer_schema [.tupleObj [.intObj 1], .tupleObj [.floatObj "2.5"]] none =
      .ok [("_1", .doubleType)] ∧
    (∃ nm, ([("_1", DataType.doubleType)] :
      List (String × DataType))[0]? = some (nm, .doubleType)) ∧
    isErr (infer_schema [.tupleObj [.strObj "a"], .tupleObj [.intObj 1]]
      none) = true := by
  refine ⟨rfl, ?_, ?_⟩
  · exact C7_numeric_widening_and_string_conflict.1
      [.tupleObj [.intObj 1], .tupleObj [.floatObj "2.5"]] none
      [("_1", .doubleType)] 0 rfl ⟨0, 1, rfl⟩ ⟨1, "2.5", rfl⟩
  · exact C7_numeric_widening_and_string_conflict.2
      [.tupleObj [.strObj "a"], .tupleObj [.intObj 1]] none 0
      ⟨0, "a", rfl⟩ ⟨1, 1, rfl⟩

/-- C3: schema inference fails with a SchemaError -- never pads,
truncates or coerces -- when two records have different arities, when two
records have different shapes (different field-name lists, covering a
mapping record next to a tuple record even at equal arity), when a
field-name hint's length disagrees with the first record's arity, or when
two values in one column have types that cannot be reconciled; in
particular a 2-tuple and a 3-tuple in the same call is an error, and so
is a two-key mapping next to a 2-tuple. -/
theorem C3_infer_schema_error_cases :
    (∀ (records : List PyObj) (names : Option (List String))
        (i1 i2 : Nat) (r1 r2 : PyObj) (a1 a2 : Nat),
      records[i1]? = some r1 → records[i2]? = some r2 →
      recordArity r1 = some a1 → recordArity r2 = some a2 → a1 ≠ a2 →
      isErr (infer_schema records names) = true) ∧
    (∀ (records : List PyObj) (names : Option (List String))
        (i1 i2 : Nat) (r1 r2 : PyObj)
        (f1 f2 : List (String × PyObj)),
      records[i1]? = some r1 → records[i2]? = some r2 →
      recordFields r1 = .ok f1 → recordFields r2 = .ok f2 →
      f1.map Prod.fst ≠ f2.map Prod.fst →
      isErr (infer_schema records names) = true) ∧
    (∀ (r0 : PyObj) (rest : List PyObj) (ns : List String)
        (f0 : List (String × PyObj)),
      recordFields r0 = .ok f0 → ns.length ≠ f0.length →
      isErr (infer_schema (r0 :: rest) (some ns)) = true) ∧
    (∀ (records : List PyObj) (names : Option (List String)) (j i1 i2 : Nat)
        (v1 v2 : PyObj) (t1 t2 : DataType),
      valueAt records i1 j = some v1 → valueAt records i2 j = some v2 →
      inferType v1 = .ok t1 → inferType v2 = .ok t2 → incompatible t1 t2 →
      isErr (infer_schema records names) = true) ∧
    isErr (infer_schema [.tupleObj [.intObj 1, .intObj 2],
      .tupleObj [.intObj 1, .intObj 2, .intObj 3]] none) = true ∧
    isErr (infer_schema [.dictObj [("a", .intObj 1), ("b", .intObj 2)],
      .tupleObj [.intObj 1, .intObj 2]] none) = true := by
  refine ⟨?_, ?_, ?_, ?_, rfl, rfl⟩
  · intro records names i1 i2 r1 r2 a1 a2 hr1 hr2 ha1 ha2 hne
    cases records with
    | nil => simp at hr1
    | cons r0 rest =>
      cases hf0 : recordFields r0 with
      | error e => simp [infer_schema, hf0, isErr]
      | ok f0 =>
        have hoff : ∃ rk ak, rk ∈ (r0 :: rest) ∧ recordArity rk = some ak ∧
            ak ≠ f0.length := by
          by_cases h1 : a1 = f0.length
          · exact ⟨r2, a2, List.getElem?_mem hr2, ha2, by omega⟩
          · exact ⟨r1, a1, List.getElem?_mem hr1, ha1, h1⟩
        obtain ⟨rk, ak, hmem, hak, hakne⟩ := hoff
        have hcs : isErr (checkShape f0 rk) = true := by
          unfold checkShape
          cases hfk : recordFields rk with
          | error e => simp [isErr]
          | ok fk =>
            have hlen : fk.length = ak := by
              simp [recordArity, hfk] at hak
              omega
            have hnedif : ¬ fk.map Prod.fst = f0.map Prod.fst := by
              intro hcontra
              have := congrArg List.length hcontra
              simp at this
              omega
            simp [hnedif, isErr]
        rcases isErr_iff.mp (mapE_isErr_of_mem hmem hcs) with ⟨e, he⟩
        cases hrn : resolveNames f0 names with
        | error e2 => simp [infer_schema, hf0, hrn, isErr]
        | ok fn => simp [infer_schema, hf0, hrn, he, isErr]
  · intro records names i1 i2 r1 r2 f1 f2 hr1 hr2 hf1 hf2 hne
    cases records with
    | nil => simp at hr1
    | cons r0 rest =>
      cases hf0 : recordFields r0 with
      | error e => simp [infer_schema, hf0, isErr]
      | ok f0 =>
        have hoff : ∃ rk fk, rk ∈ (r0 :: rest) ∧ recordFields rk = .ok fk ∧
            ¬ fk.map Prod.fst = f0.map Prod.fst := by
          by_cases h1 : f1.map Prod.fst = f0.map Prod.fst
          · refine ⟨r2, f2, List.getElem?_mem hr2, hf2, fun hc => hne ?_⟩
            rw [h1, hc]
          · exact ⟨r1, f1, List.getElem?_mem hr1, hf1, h1⟩
        obtain ⟨rk, fk, hmem, hfk, hkne⟩ := hoff
        have hcs : isErr (checkShape f0 rk) = true := by
          simp [checkShape, hfk, hkne, isErr]
        rcases isErr_iff.mp (mapE_isErr_of_mem hmem hcs) with ⟨e, he⟩
        cases hrn : resolveNames f0 names with
        | error e2 => simp [infer_schema, hf0, hrn, isErr]
        | ok fn => simp [infer_schema, hf0, hrn, he, isErr]
  · intro r0 rest ns f0 hf0 hlen
    have hrn : resolveNames f0 (some ns) = .error
        (.schemaError "the length of the field names does not match the arity") := by
      simp [resolveNames, hlen]
    simp [infer_schema, hf0, hrn, isErr]
  · intro records names j i1 i2 v1 v2 t1 t2 hv1 hv2 ht1 ht2 hinc
    cases hres : infer_schema records names with
    | error e => simp [isErr]
    | ok s =>
      exfalso
      obtain ⟨ts, colTy, nm, hsj, hcolty, hall⟩ := infer_ok_column hres hv1
      obtain ⟨t1', ht1', hm1⟩ := hall i1 _ hv1
      obtain ⟨t2', ht2', hm2⟩ := hall i2 _ hv2
      rw [ht1] at ht1'
      cases ht1'
      rw [ht2] at ht2'
      cases ht2'
      have herr := inferColumnType_incompatible hm1 hm2 hinc
      rw [hcolty] at herr
      simp [isErr] at herr

/-- C3 witness: a 2-tuple and a 3-tuple in the same call (arity
mismatch), and a two-key mapping next to a 2-tuple (shape mismatch at
equal arity). -/
theorem C3_infer_schema_error_cases_witness :
    ([PyObj.tupleObj [.intObj 1, .intObj 2],
      PyObj.tupleObj [.intObj 1, .intObj 2, .intObj 3]][0]? =
        some (.tupleObj [.intObj 1, .intObj 2])) ∧
    recordArity (.tupleObj [.intObj 1, .intObj 2]) = some 2 ∧
    recordArity (.tupleObj [.intObj 1, .intObj 2, .intObj 3]) = some 3 ∧
    isErr (infer_schema [.tupleObj [.intObj 1, .intObj 2],
      .tupleObj [.intObj 1, .intObj 2, .intObj 3]] none) = true ∧
    recordFields (.dictObj [("a", .intObj 1), ("b", .intObj 2)]) =
      .ok [("a", .intObj 1), ("b", .intObj 2)] ∧
    recordFields (.tupleObj [.intObj 1, .intObj 2]) =
      .ok [("_1", .intObj 1), ("_2", .intObj 2)] ∧
    isErr (infer_schema [.dictObj [("a", .intObj 1), ("b", .intObj 2)],
      .tupleObj [.intObj 1, .intObj 2]] none) = true := by
  refine ⟨rfl, rfl, rfl, ?_, rfl, rfl, ?_⟩
  · exact C3_infer_schema_error_cases.1
      [.tupleObj [.intObj 1, .intObj 2],
       .tupleObj [.intObj 1, .intObj 2, .intObj 3]] none 0 1 _ _ 2 3
      rfl rfl rfl rfl (by decide)
  · exact C3_infer_schema_error_cases.2.1
      [.dictObj [("a", .intObj 1), ("b", .intObj 2)],
       .tupleObj [.intObj 1, .intObj 2]] none 0 1 _ _
      [("a", .intObj 1), ("b", .intObj 2)]
      [("_1", .intObj 1), ("_2", .intObj 2)]
      rfl rfl rfl rfl (by decide)

end Flink
